import Mathlib

/-!
# Verification of the logo-generation pipeline

Shallow embedding of the document rendering and artboard-selection pipeline
of the logo-generation web application (main variant with artboard
selection).  JavaScript numbers are modelled as rationals (`ℚ`), DOM/canvas
state as an explicit record, and the callback-driven handlers as state
transition functions.
-/

namespace LogoGen

/-- `CANVAS_WIDTH` constant of the source. -/
def CANVAS_WIDTH : ℚ := 786

/-- `CANVAS_HEIGHT` constant of the source. -/
def CANVAS_HEIGHT : ℚ := 280

/-- A decoded pixel buffer with its dimensions (an `Image` whose `width`
and `height` the compositor reads). -/
structure Raster where
  width : ℚ
  height : ℚ
  deriving DecidableEq, Repr

/-- Result of the contain-fit computation inside `drawImageToCanvas`:
scaled draw size and centred offsets. -/
structure FitResult where
  drawWidth : ℚ
  drawHeight : ℚ
  offsetX : ℚ
  offsetY : ℚ
  deriving DecidableEq, Repr

/-- The geometry computation of `drawImageToCanvas` (source lines 357-375):
contain-mode scaling with a 0.9 padding factor and centring.  `0.9` of the
source is the rational `9/10`. -/
def fitContain (w h : ℚ) : FitResult :=
  let imgAspect := w / h
  let canvasAspect := CANVAS_WIDTH / CANVAS_HEIGHT
  if imgAspect > canvasAspect then
    -- image is wider than canvas: 90% width with padding
    let drawWidth := CANVAS_WIDTH * (9/10)
    let drawHeight := drawWidth / imgAspect
    ⟨drawWidth, drawHeight,
      (CANVAS_WIDTH - drawWidth) / 2, (CANVAS_HEIGHT - drawHeight) / 2⟩
  else
    -- image is taller than canvas: 90% height with padding
    let drawHeight := CANVAS_HEIGHT * (9/10)
    let drawWidth := drawHeight * imgAspect
    ⟨drawWidth, drawHeight,
      (CANVAS_WIDTH - drawWidth) / 2, (CANVAS_HEIGHT - drawHeight) / 2⟩

/-- The single-factor scale of `renderPDFPage` (source lines 303-305):
`min(CANVAS_WIDTH / w, CANVAS_HEIGHT / h) * 0.9`. -/
def pdfRenderScale (w h : ℚ) : ℚ :=
  min (CANVAS_WIDTH / w) (CANVAS_HEIGHT / h) * (9/10)

/-- A parsed multi-page document (the `PDFDocumentProxy` handle): its page
count and, for each 1-based page number, the native viewport dimensions
returned by `getViewport({scale: 1})`. -/
structure PDFDoc where
  numPages : Nat
  viewport : Nat → ℚ × ℚ

/-- `pdf.getPage(k)`: succeeds exactly for 1-based page numbers in range,
returning the page's native viewport; out-of-range page requests are
rejected by the rendering library (the `PageIndexError` of the spec). -/
def PDFDoc.page (pdf : PDFDoc) (k : Nat) : Option (ℚ × ℚ) :=
  if 1 ≤ k ∧ k ≤ pdf.numPages then some (pdf.viewport k) else none

/-- Content of the fixed 786x280 output canvas: blank white, or the last
raster drawn with its fit geometry. -/
inductive CanvasContent where
  | white : CanvasContent
  | drawn (img : Raster) (g : FitResult) : CanvasContent
  deriving DecidableEq, Repr

/-- One slot of the artboard selector grid: a rendered thumbnail for a page
(with the scaled canvas dimensions), or the "로드 실패" failed placeholder
put in place by `generateThumbnail`'s catch handler. -/
inductive ThumbSlot where
  | rendered (page : Nat) (width height : ℚ) : ThumbSlot
  | failed : ThumbSlot
  deriving DecidableEq, Repr

/-- The mutable application state: the output canvas, the script-level
globals (`currentFileName`, `hasImage`, `currentPDF`, `selectedArtboard`)
and the observable DOM state (save button, artboard grid with its
`selected` markers in DOM order, section visibility, loading class).
`renderedPage` records which document page the canvas content came from
(none when the canvas holds a raster upload or is blank). -/
structure AppState where
  canvas : CanvasContent
  currentFileName : String
  hasImage : Bool
  saveEnabled : Bool
  currentPDF : Option PDFDoc
  selectedArtboard : Option Nat
  markers : List Nat
  thumbnails : List ThumbSlot
  artboardVisible : Bool
  fileInfoVisible : Bool
  loading : Bool
  renderedPage : Option Nat

/-- `initCanvas()`: fill the output canvas with the white background. -/
def initCanvas (s : AppState) : AppState :=
  { s with canvas := .white }

/-- `hideArtboardSection()`: hide the selector, clear the grid (and with it
every `selected` marker), drop the document handle and the selection. -/
def hideArtboardSection (s : AppState) : AppState :=
  { s with artboardVisible := false, thumbnails := [], markers := [],
           currentPDF := none, selectedArtboard := none, renderedPage := none }

/-- `clearCanvas()`: white canvas, reset filename / image flag / save
button / file info, then `hideArtboardSection()`. -/
def clearCanvas (s : AppState) : AppState :=
  hideArtboardSection
    { initCanvas s with currentFileName := "", hasImage := false,
                        saveEnabled := false, fileInfoVisible := false }

/-- `drawImageToCanvas(img)`: clear to white, compute the contain fit,
draw the raster, set `hasImage` and enable the save button.  Drawing a
raster overwrites any previously rendered document page, so the
page-provenance ghost field is cleared here and re-set by `renderPDFPage`. -/
def drawImageToCanvas (img : Raster) (s : AppState) : AppState :=
  { s with canvas := .drawn img (fitContain img.width img.height),
           hasImage := true, saveEnabled := true, renderedPage := none }

/-- `renderPDFPage(pdf, pageNum)`: on `getPage` success compute the scaled
viewport with `pdfRenderScale`, rasterize the page onto a white temporary
canvas of exactly the scaled dimensions, and composite that raster via
`drawImageToCanvas`; the catch handler only alerts, leaving the state
unchanged. -/
def renderPDFPage (pdf : PDFDoc) (pageNum : Nat) (s : AppState) : AppState :=
  match pdf.page pageNum with
  | some (w, h) =>
      let scale := pdfRenderScale w h
      let raster : Raster := ⟨w * scale, h * scale⟩
      { drawImageToCanvas raster s with renderedPage := some pageNum }
  | none => s

/-- `artboardGrid.querySelector('.selected')` followed by
`classList.remove('selected')`: removes the `selected` class from the first
marked item in DOM order, or does nothing when none is marked. -/
def removeFirstMarker : List Nat → List Nat
  | [] => []
  | _ :: rest => rest

/-- `selectArtboard(element, pageNum)`: unmark the previously selected
item, mark the clicked one, record the selection, and — only if a document
handle is present — re-render the chosen page to the output canvas. -/
def selectArtboard (pageNum : Nat) (s : AppState) : AppState :=
  let s1 := { s with markers := removeFirstMarker s.markers ++ [pageNum],
                     selectedArtboard := some pageNum }
  match s1.currentPDF with
  | some pdf => renderPDFPage pdf pageNum s1
  | none => s1

/-- `generateThumbnail(pdf, pageNum, container)`: render the page at scale
`200 / viewportWidth` onto its own small canvas; on any failure (page
fetch or rasterization, modelled by the `renderOk` oracle for the external
rendering capability) the catch handler replaces only this slot's content
with the failed placeholder. -/
def generateThumbnail (pdf : PDFDoc) (pageNum : Nat) (renderOk : Nat → Bool) :
    ThumbSlot :=
  match pdf.page pageNum with
  | some (w, h) =>
      if renderOk pageNum then
        let scale := 200 / w
        .rendered pageNum (w * scale) (h * scale)
      else .failed
  | none => .failed

/-- `showArtboardSelector(pdf, numPages)`: empty the grid, reset the
selection, create one slot per page in index order (the slot at list
position `i` belongs to page `i+1`), fire the per-page thumbnail
generation, and show the section. -/
def showArtboardSelector (pdf : PDFDoc) (renderOk : Nat → Bool)
    (s : AppState) : AppState :=
  { s with thumbnails :=
             (List.range pdf.numPages).map
               (fun i => generateThumbnail pdf (i + 1) renderOk),
           markers := [], selectedArtboard := none, artboardVisible := true }

/-- Outcome of `pdfjsLib.getDocument(...).promise` for the uploaded bytes:
a parsed document, or a rejection carrying the library's error message. -/
inductive PdfParse where
  | ok (pdf : PDFDoc) : PdfParse
  | err (msg : String) : PdfParse

/-- Character-level containment test modelling JavaScript
`message.includes(needle)`. -/
def leadsWith : List Char → List Char → Bool
  | [], _ => true
  | _ :: _, [] => false
  | a :: as, b :: bs => a == b && leadsWith as bs

/-- Containment of `needle` in `hay` as a contiguous substring. -/
def containsSub (needle : List Char) : List Char → Bool
  | [] => needle.isEmpty
  | c :: rest => leadsWith needle (c :: rest) || containsSub needle rest

/-- `message.includes(needle)` on strings. -/
def strIncludes (hay needle : String) : Bool :=
  containsSub needle.data hay.data

/-- Error kinds surfaced by the `processPDFFile` catch handler: the
dedicated non-PDF-compatible-save message, or the generic processing
error. -/
inductive DocError where
  | incompatibleExportMode : DocError
  | documentFormatError : DocError
  deriving DecidableEq, Repr

/-- The error-message selection of `processPDFFile`'s catch handler
(source lines 172-175): the dedicated message exactly when the failure
message contains "Invalid PDF". -/
def classifyDocError (msg : String) : DocError :=
  if strIncludes msg "Invalid PDF" then .incompatibleExportMode
  else .documentFormatError

/-- `processPDFFile(file)` state effect: on parse success store the handle,
then either show the artboard selector (several pages) or render page 1
directly (single page), clearing the loading class; on parse failure
alert, clear the loading class and `clearCanvas()`. -/
def processPDFFile (parse : PdfParse) (renderOk : Nat → Bool)
    (s : AppState) : AppState :=
  match parse with
  | .ok pdf =>
      let s1 := { s with currentPDF := some pdf }
      if pdf.numPages > 1 then
        { showArtboardSelector pdf renderOk s1 with loading := false }
      else
        { renderPDFPage pdf 1 s1 with loading := false }
  | .err _ => clearCanvas { s with loading := false }

/-- Error surfaced by `processPDFFile`: none on success, otherwise the
classified kind of the parse failure. -/
def processPDFFileError (parse : PdfParse) : Option DocError :=
  match parse with
  | .ok _ => none
  | .err msg => some (classifyDocError msg)

/-- The asynchronous outcome of the raster path: the decoded image loads,
the image decode fails (`img.onerror`), or the file read itself fails
(`reader.onerror`). -/
inductive ImgEvent where
  | loadOk (img : Raster) : ImgEvent
  | decodeErr : ImgEvent
  | readErr : ImgEvent

/-- `processImageFile(file)` state effect per outcome: successful load
composites and clears the loading class; `img.onerror` alerts, clears the
loading class and calls `clearCanvas()`; `reader.onerror` alerts and
clears the loading class only. -/
def processImageFile (ev : ImgEvent) (s : AppState) : AppState :=
  match ev with
  | .loadOk img => { drawImageToCanvas img s with loading := false }
  | .decodeErr => clearCanvas { s with loading := false }
  | .readErr => { s with loading := false }

/-- Character-level model of JavaScript `string.split('.')`: the groups of
characters between the dots (empty groups included, as in JS). -/
def splitDots : List Char → List (List Char)
  | [] => [[]]
  | c :: rest =>
      if c = '.' then [] :: splitDots rest
      else
        match splitDots rest with
        | [] => [[c]]
        | g :: gs => (c :: g) :: gs

/-- The extension computed by `handleFile` (source line 86):
`file.name.split('.').pop().toLowerCase()` — the characters after the last
dot, or the whole name when it has no dot, lowercased. -/
def extOf (name : String) : String :=
  String.mk (((splitDots name.data).getLastD []).map Char.toLower)

/-- The `validExtensions` array of `handleFile`. -/
def validExtensions : List String := ["jpg", "jpeg", "png", "pdf", "ai"]

/-- The three routes of the ingestion dispatcher. -/
inductive FileKind where
  | raster : FileKind
  | document : FileKind
  | unsupported : FileKind
  deriving DecidableEq, Repr

/-- `handleFile`'s routing: unsupported when the extension is not in
`validExtensions`, the document path for `pdf`/`ai`, the raster path
otherwise. -/
def classify (name : String) : FileKind :=
  let e := extOf name
  if ¬ validExtensions.contains e then .unsupported
  else if e = "pdf" ∨ e = "ai" then .document
  else .raster

/-- The base-name computation of `handleFile` (source line 95):
`file.name.replace(/\.[^/.]+$/, '')` — strip a final dot followed by one or
more characters none of which is a dot or a slash; otherwise leave the name
unchanged.  Implemented on the reversed character list. -/
def stripExtRev (rev : List Char) : List Char :=
  let tail := rev.takeWhile (fun c => ¬ (c = '.' ∨ c = '/'))
  match rev.drop tail.length with
  | '.' :: rest => if tail.isEmpty then rev else rest
  | _ => rev

/-- Base name of an uploaded filename: final extension stripped. -/
def stripExt (name : String) : String :=
  String.mk (stripExtRev name.data.reverse).reverse

/-- State effect of `handleFile(file)` before dispatching: reject an
unsupported extension without touching anything; otherwise record the base
name, show the file info, set the loading class and hide the artboard
section. -/
def handleFile (name : String) (s : AppState) : AppState :=
  if validExtensions.contains (extOf name) then
    hideArtboardSection
      { s with currentFileName := stripExt name, fileInfoVisible := true,
               loading := true }
  else s

/-- `downloadImage()`: when `hasImage` is unset, alert and produce nothing;
otherwise produce a PNG artifact named `currentFileName + "_logo.png"`.
Either way the application state is untouched. -/
def downloadImage (s : AppState) : Option String × AppState :=
  if s.hasImage then (some (s.currentFileName ++ "_logo.png"), s)
  else (none, s)

/-- The abstract states of the artboard-selection state machine. -/
inductive MachineState where
  | idle : MachineState
  | awaitingSelection : MachineState
  | selected (pageIndex : Nat) : MachineState
  deriving DecidableEq, Repr

/-- Abstraction of the concrete state: no document handle is `Idle`; a
handle with a page rendered to the output canvas is `Selected`; a handle
with no page rendered yet is `AwaitingSelection`. -/
def abstractState (s : AppState) : MachineState :=
  match s.currentPDF, s.renderedPage with
  | none, _ => .idle
  | some _, some k => .selected k
  | some _, none => .awaitingSelection

/-- The state right after the script's top-level initialization:
`initCanvas()` has filled the canvas white and every global is at its
declared initial value. -/
def initialState : AppState :=
  { canvas := .white, currentFileName := "", hasImage := false,
    saveEnabled := false, currentPDF := none, selectedArtboard := none,
    markers := [], thumbnails := [], artboardVisible := false,
    fileInfoVisible := false, loading := false, renderedPage := none }

/-- A state in which a previous upload succeeded (a 400x100 raster was
composited) and a new file named `old.<ext>` is being read: stale canvas
content with the loading class set. -/
def staleState : AppState :=
  { drawImageToCanvas ⟨400, 100⟩ initialState with
      currentFileName := "old", fileInfoVisible := true, loading := true }

/-- A three-page document whose pages all have a 400x100 viewport. -/
def threePageDoc : PDFDoc :=
  { numPages := 3, viewport := fun _ => (400, 100) }

/-- The state after uploading `threePageDoc` and picking page 1. -/
def multiDocState : AppState :=
  selectArtboard 1
    (processPDFFile (.ok threePageDoc) (fun _ => true) initialState)

/-! ## Claim theorems -/

/-- The draw dimensions produced by `fitContain` are a fixed point of
`fitContain`: feeding them back in returns them unchanged. -/
lemma fitContain_dims_idem (w h : ℚ) :
    (fitContain (fitContain w h).drawWidth
        (fitContain w h).drawHeight).drawWidth
      = (fitContain w h).drawWidth ∧
    (fitContain (fitContain w h).drawWidth
        (fitContain w h).drawHeight).drawHeight
      = (fitContain w h).drawHeight := by
  simp only [fitContain, CANVAS_WIDTH, CANVAS_HEIGHT]
  rcases lt_or_le (786 / 280 : ℚ) (w / h) with hc | hc
  · -- wider branch: dims are (786*(9/10), 786*(9/10)/(w/h))
    have hratio : (786 * (9/10) : ℚ) / (786 * (9/10) / (w / h)) = w / h := by
      rw [div_div_eq_mul_div]
      exact mul_div_cancel_left₀ _ (by norm_num)
    rw [if_pos hc]
    dsimp only
    rw [hratio, if_pos hc]
    exact ⟨rfl, rfl⟩
  · -- taller/equal branch: dims are (280*(9/10)*(w/h), 280*(9/10))
    have hratio : (280 * (9/10) * (w / h) : ℚ) / (280 * (9/10)) = w / h :=
      mul_div_cancel_left₀ _ (by norm_num)
    rw [if_neg (not_lt.mpr hc)]
    dsimp only
    rw [hratio, if_neg (not_lt.mpr hc)]
    exact ⟨rfl, rfl⟩

/-- C4: for every page viewport `(w, h)` with `w, h > 0`, the single-factor
scale of `renderPDFPage` produces a raster whose dimensions are exactly the
`(drawWidth, drawHeight)` of the branch-based contain fit of
`drawImageToCanvas` on `(w, h)`; consequently `fitContain` on the raster's
own dimensions returns them unchanged, i.e. the page raster is composited
onto the output canvas at its native size. -/
theorem renderPDFPage_scale_refines_fitContain (pdf : PDFDoc) (k : Nat)
    (w h : ℚ) (s : AppState) (hw : 0 < w) (hh : 0 < h)
    (hpage : pdf.page k = some (w, h)) :
    w * pdfRenderScale w h = (fitContain w h).drawWidth ∧
    h * pdfRenderScale w h = (fitContain w h).drawHeight ∧
    (fitContain (w * pdfRenderScale w h)
        (h * pdfRenderScale w h)).drawWidth = w * pdfRenderScale w h ∧
    (fitContain (w * pdfRenderScale w h)
        (h * pdfRenderScale w h)).drawHeight = h * pdfRenderScale w h ∧
    (renderPDFPage pdf k s).canvas
      = .drawn ⟨w * pdfRenderScale w h, h * pdfRenderScale w h⟩
          (fitContain (w * pdfRenderScale w h) (h * pdfRenderScale w h)) := by
  have hw' : w ≠ 0 := hw.ne'
  have hh' : h ≠ 0 := hh.ne'
  obtain ⟨hdw, hdh⟩ : w * pdfRenderScale w h = (fitContain w h).drawWidth ∧
      h * pdfRenderScale w h = (fitContain w h).drawHeight := by
    rcases lt_trichotomy (w / h) (786 / 280) with hlt | heq | hgt
    · -- page relatively taller: min picks the height factor
      have hcross : w * 280 < 786 * h :=
        (div_lt_div_iff₀ hh (by norm_num)).mp hlt
      have hmin : min (786 / w) (280 / h) = 280 / h :=
        min_eq_right ((div_le_div_iff₀ hh hw).mpr (by linarith))
      have hcond : ¬ (w / h > 786 / 280) := not_lt.mpr hlt.le
      simp only [pdfRenderScale, fitContain, CANVAS_WIDTH, CANVAS_HEIGHT,
        hmin, if_neg hcond]
      constructor
      · dsimp only; field_simp; ring
      · dsimp only; field_simp; ring
    · -- equal aspect: min picks the (equal) width factor
      have hcross : w * 280 = 786 * h :=
        (div_eq_div_iff hh' (by norm_num)).mp heq
      have hmin : min (786 / w) (280 / h) = 786 / w :=
        min_eq_left ((div_le_div_iff₀ hw hh).mpr (by linarith))
      have hcond : ¬ (w / h > 786 / 280) := not_lt.mpr heq.le
      simp only [pdfRenderScale, fitContain, CANVAS_WIDTH, CANVAS_HEIGHT,
        hmin, if_neg hcond]
      constructor
      · dsimp only; field_simp
        linear_combination (-90 * w) * hcross
      · dsimp only; field_simp
        linear_combination (-90 : ℚ) * hcross
    · -- page relatively wider: min picks the width factor
      have hcross : 786 * h < w * 280 :=
        (div_lt_div_iff₀ (by norm_num) hh).mp hgt
      have hmin : min (786 / w) (280 / h) = 786 / w :=
        min_eq_left ((div_le_div_iff₀ hw hh).mpr (by linarith))
      simp only [pdfRenderScale, fitContain, CANVAS_WIDTH, CANVAS_HEIGHT,
        hmin, if_pos hgt]
      constructor
      · dsimp only; field_simp; ring
      · dsimp only; field_simp; ring
  have hidem := fitContain_dims_idem w h
  refine ⟨hdw, hdh, ?_, ?_, ?_⟩
  · rw [hdw, hdh]; exact hidem.1
  · rw [hdw, hdh]; exact hidem.2
  · simp only [renderPDFPage, hpage, drawImageToCanvas]

/-- Witness for C4 on a single-page document with a 400x100 page. -/
theorem renderPDFPage_scale_refines_fitContain_witness :
    (0 : ℚ) < 400 ∧ (0 : ℚ) < 100 ∧
    (PDFDoc.page ⟨1, fun _ => ((400 : ℚ), (100 : ℚ))⟩ 1
        = some ((400 : ℚ), (100 : ℚ))) ∧
    ((400 : ℚ) * pdfRenderScale 400 100 = (fitContain 400 100).drawWidth ∧
     (100 : ℚ) * pdfRenderScale 400 100 = (fitContain 400 100).drawHeight ∧
     (fitContain ((400 : ℚ) * pdfRenderScale 400 100)
         ((100 : ℚ) * pdfRenderScale 400 100)).drawWidth
        = (400 : ℚ) * pdfRenderScale 400 100 ∧
     (fitContain ((400 : ℚ) * pdfRenderScale 400 100)
         ((100 : ℚ) * pdfRenderScale 400 100)).drawHeight
        = (100 : ℚ) * pdfRenderScale 400 100 ∧
     (renderPDFPage ⟨1, fun _ => ((400 : ℚ), (100 : ℚ))⟩ 1
         initialState).canvas
        = .drawn ⟨(400 : ℚ) * pdfRenderScale 400 100,
                  (100 : ℚ) * pdfRenderScale 400 100⟩
            (fitContain ((400 : ℚ) * pdfRenderScale 400 100)
              ((100 : ℚ) * pdfRenderScale 400 100))) :=
  ⟨by norm_num, by norm_num, by decide,
    renderPDFPage_scale_refines_fitContain ⟨1, fun _ => (400, 100)⟩ 1
      400 100 initialState (by norm_num) (by norm_num) (by decide)⟩

/-- C3: from the Idle state left by `handleFile` (no document handle, no
rendered page, artboard selector hidden), a successfully parsed single-page
document goes directly to `Selected 1` — page 1 is rendered to the output
canvas and the artboard selector is never shown — while a multi-page
document goes to `AwaitingSelection` with one thumbnail slot per page and
the output canvas untouched. -/
theorem processPDFFile_single_page_skips_selection (pdf : PDFDoc)
    (renderOk : Nat → Bool) (s : AppState) (hpdf : s.currentPDF = none)
    (hrp : s.renderedPage = none) (hvis : s.artboardVisible = false) :
    abstractState s = .idle ∧
    (pdf.numPages = 1 →
      abstractState (processPDFFile (.ok pdf) renderOk s) = .selected 1 ∧
      (processPDFFile (.ok pdf) renderOk s).artboardVisible = false ∧
      (processPDFFile (.ok pdf) renderOk s).canvas =
        .drawn ⟨(pdf.viewport 1).1
                  * pdfRenderScale (pdf.viewport 1).1 (pdf.viewport 1).2,
                (pdf.viewport 1).2
                  * pdfRenderScale (pdf.viewport 1).1 (pdf.viewport 1).2⟩
          (fitContain
            ((pdf.viewport 1).1
              * pdfRenderScale (pdf.viewport 1).1 (pdf.viewport 1).2)
            ((pdf.viewport 1).2
              * pdfRenderScale (pdf.viewport 1).1 (pdf.viewport 1).2)) ∧
      (processPDFFile (.ok pdf) renderOk s).hasImage = true) ∧
    (1 < pdf.numPages →
      abstractState (processPDFFile (.ok pdf) renderOk s)
          = .awaitingSelection ∧
      (processPDFFile (.ok pdf) renderOk s).artboardVisible = true ∧
      (processPDFFile (.ok pdf) renderOk s).thumbnails.length
          = pdf.numPages ∧
      (processPDFFile (.ok pdf) renderOk s).canvas = s.canvas ∧
      (processPDFFile (.ok pdf) renderOk s).hasImage = s.hasImage) := by
  refine ⟨by simp [abstractState, hpdf], ?_, ?_⟩
  · intro h1
    have hpage : pdf.page 1 = some (pdf.viewport 1) := by
      simp [PDFDoc.page, h1]
    have hres : processPDFFile (.ok pdf) renderOk s
        = { renderPDFPage pdf 1 { s with currentPDF := some pdf } with
            loading := false } := by
      simp only [processPDFFile, h1]
      rw [if_neg (by norm_num : ¬ (1:ℕ) > 1)]
    rw [hres]
    simp [renderPDFPage, hpage, drawImageToCanvas, abstractState, hvis]
  · intro hm
    have hres : processPDFFile (.ok pdf) renderOk s
        = { showArtboardSelector pdf renderOk
              { s with currentPDF := some pdf } with loading := false } := by
      simp only [processPDFFile]
      rw [if_pos hm]
    rw [hres]
    simp [showArtboardSelector, abstractState, hrp]

/-- Witness for C3: a one-page and a three-page document starting from the
initial state. -/
theorem processPDFFile_single_page_skips_selection_witness :
    (initialState.currentPDF = none ∧ initialState.renderedPage = none ∧
      initialState.artboardVisible = false) ∧
    abstractState
      (processPDFFile (.ok ⟨1, fun _ => ((400 : ℚ), (100 : ℚ))⟩)
        (fun _ => true) initialState) = .selected 1 ∧
    abstractState
      (processPDFFile (.ok ⟨3, fun _ => ((400 : ℚ), (100 : ℚ))⟩)
        (fun _ => true) initialState) = .awaitingSelection ∧
    (processPDFFile (.ok ⟨3, fun _ => ((400 : ℚ), (100 : ℚ))⟩)
        (fun _ => true) initialState).thumbnails.length = 3 :=
  ⟨⟨rfl, rfl, rfl⟩,
    ((processPDFFile_single_page_skips_selection
        ⟨1, fun _ => (400, 100)⟩ (fun _ => true) initialState
        rfl rfl rfl).2.1 rfl).1,
    ((processPDFFile_single_page_skips_selection
        ⟨3, fun _ => (400, 100)⟩ (fun _ => true) initialState
        rfl rfl rfl).2.2 (by norm_num)).1,
    ((processPDFFile_single_page_skips_selection
        ⟨3, fun _ => (400, 100)⟩ (fun _ => true) initialState
        rfl rfl rfl).2.2 (by norm_num)).2.2.1⟩

/-- C1: for every content size `(w, h)` with `w > 0` and `h > 0`, the
contain-fit of `drawImageToCanvas` into the 786x280 target with padding
factor 0.9 stays inside the target, preserves the aspect ratio exactly,
centres with non-negative offsets whose sums stay inside the target, and
uses exactly 0.9 of the target extent on the constrained axis. -/
theorem fitContain_contains_and_preserves_aspect (w h : ℚ)
    (hw : 0 < w) (hh : 0 < h) :
    (fitContain w h).drawWidth ≤ CANVAS_WIDTH ∧
    (fitContain w h).drawHeight ≤ CANVAS_HEIGHT ∧
    (fitContain w h).drawWidth / (fitContain w h).drawHeight = w / h ∧
    0 ≤ (fitContain w h).offsetX ∧
    0 ≤ (fitContain w h).offsetY ∧
    (fitContain w h).offsetX + (fitContain w h).drawWidth ≤ CANVAS_WIDTH ∧
    (fitContain w h).offsetY + (fitContain w h).drawHeight ≤ CANVAS_HEIGHT ∧
    ((fitContain w h).drawWidth = CANVAS_WIDTH * (9/10) ∨
      (fitContain w h).drawHeight = CANVAS_HEIGHT * (9/10)) := by
  have ha : 0 < w / h := div_pos hw hh
  simp only [fitContain, CANVAS_WIDTH, CANVAS_HEIGHT]
  split_ifs with hc
  · -- content relatively wider: width is the constrained axis
    have h786 : (786 : ℚ) < w / h * 280 :=
      (div_lt_iff₀ (by norm_num : (0:ℚ) < 280)).mp hc
    have hdh : 786 * (9/10) / (w / h) ≤ 280 := by
      rw [div_le_iff₀ ha]; nlinarith
    have hdhpos : 0 < 786 * (9/10) / (w / h) :=
      div_pos (by norm_num) ha
    refine ⟨by norm_num, hdh, ?_, by norm_num, by dsimp only; linarith,
      by norm_num, by dsimp only; linarith, Or.inl rfl⟩
    dsimp only
    rw [div_div_eq_mul_div]
    exact mul_div_cancel_left₀ _ (by norm_num)
  · -- content relatively taller (or equal aspect): height is constrained
    push_neg at hc
    have h786 : w / h * 280 ≤ 786 :=
      (le_div_iff₀ (by norm_num : (0:ℚ) < 280)).mp hc
    have hdw : 280 * (9/10) * (w / h) ≤ 786 := by nlinarith
    have hdwpos : 0 < 280 * (9/10) * (w / h) := by positivity
    refine ⟨hdw, by norm_num, ?_, by dsimp only; linarith, by norm_num,
      by dsimp only; linarith, by norm_num, Or.inr rfl⟩
    dsimp only
    exact mul_div_cancel_left₀ _ (by norm_num)

/-- Witness for C1 at the spec's Scenario A input (a 400x100 raster). -/
theorem fitContain_contains_and_preserves_aspect_witness :
    (0 : ℚ) < 400 ∧ (0 : ℚ) < 100 ∧
    ((fitContain 400 100).drawWidth ≤ CANVAS_WIDTH ∧
     (fitContain 400 100).drawHeight ≤ CANVAS_HEIGHT ∧
     (fitContain 400 100).drawWidth / (fitContain 400 100).drawHeight
        = 400 / 100 ∧
     0 ≤ (fitContain 400 100).offsetX ∧
     0 ≤ (fitContain 400 100).offsetY ∧
     (fitContain 400 100).offsetX + (fitContain 400 100).drawWidth
        ≤ CANVAS_WIDTH ∧
     (fitContain 400 100).offsetY + (fitContain 400 100).drawHeight
        ≤ CANVAS_HEIGHT ∧
     ((fitContain 400 100).drawWidth = CANVAS_WIDTH * (9/10) ∨
       (fitContain 400 100).drawHeight = CANVAS_HEIGHT * (9/10))) :=
  ⟨by norm_num, by norm_num,
    fitContain_contains_and_preserves_aspect 400 100 (by norm_num) (by norm_num)⟩

/-- C2 counterexample: a file-read failure (`reader.onerror`) does not
reset the state — with stale content on the canvas, `hasImage` stays true,
the canvas keeps the previous render, and the already-updated filename
remains. -/
theorem readError_keeps_stale_state :
    (processImageFile .readErr staleState).hasImage = true ∧
    (processImageFile .readErr staleState).canvas ≠ .white ∧
    (processImageFile .readErr staleState).currentFileName = "old" ∧
    (processImageFile .readErr staleState).canvas = staleState.canvas := by
  refine ⟨rfl, ?_, rfl, rfl⟩
  simp [processImageFile, staleState, drawImageToCanvas]

/-- C2 (amended): a document parse failure and a raster decode failure
each reset the canvas to blank white and the upload state to Idle, but a
file-read failure (`reader.onerror`) only clears the loading indicator and
leaves the canvas and upload state as they were. -/
theorem top_level_failure_reset_behavior (msg : String)
    (renderOk : Nat → Bool) (s : AppState) :
    processPDFFile (.err msg) renderOk s = clearCanvas { s with loading := false } ∧
    (processPDFFile (.err msg) renderOk s).canvas = .white ∧
    (processPDFFile (.err msg) renderOk s).hasImage = false ∧
    (processPDFFile (.err msg) renderOk s).currentPDF = none ∧
    (processPDFFile (.err msg) renderOk s).selectedArtboard = none ∧
    (processPDFFile (.err msg) renderOk s).thumbnails = [] ∧
    (processPDFFile (.err msg) renderOk s).currentFileName = "" ∧
    abstractState (processPDFFile (.err msg) renderOk s) = .idle ∧
    processImageFile .decodeErr s = clearCanvas { s with loading := false } ∧
    processImageFile .readErr s = { s with loading := false } :=
  ⟨rfl, rfl, rfl, rfl, rfl, rfl, rfl, rfl, rfl, rfl⟩

/-- C6 counterexample: picking the out-of-range page 5 of a three-page
document does not leave the state unchanged — the selected index moves
from page 1 to the non-existent page 5 and the selection marker moves with
it (only the canvas is untouched). -/
theorem selectArtboard_out_of_range_changes_selection :
    multiDocState.selectedArtboard = some 1 ∧
    multiDocState.markers = [1] ∧
    (selectArtboard 5 multiDocState).selectedArtboard = some 5 ∧
    (selectArtboard 5 multiDocState).markers = [5] ∧
    (selectArtboard 5 multiDocState).selectedArtboard
      ≠ multiDocState.selectedArtboard := by
  refine ⟨rfl, rfl, rfl, rfl, by decide⟩

/-- C6 (amended): with a multi-page document loaded, `pick(k)` for `k` in
`[1, pageCount]` moves to `Selected k` with exactly one page marked;
`pick(k)` for `k` out of range fails inside `renderPDFPage` (the page
request is rejected), leaving the canvas, `hasImage` and the rendered page
unchanged — but the selected index and the selection marker are still
updated to `k`. -/
theorem selectArtboard_selection_behavior (pdf : PDFDoc) (k : Nat)
    (s : AppState) (hdoc : s.currentPDF = some pdf)
    (hm : s.markers.length ≤ 1) :
    ((1 ≤ k ∧ k ≤ pdf.numPages) →
      (selectArtboard k s).selectedArtboard = some k ∧
      (selectArtboard k s).markers = [k] ∧
      abstractState (selectArtboard k s) = .selected k) ∧
    (¬ (1 ≤ k ∧ k ≤ pdf.numPages) →
      (selectArtboard k s).canvas = s.canvas ∧
      (selectArtboard k s).hasImage = s.hasImage ∧
      (selectArtboard k s).renderedPage = s.renderedPage ∧
      (selectArtboard k s).selectedArtboard = some k ∧
      (selectArtboard k s).markers = removeFirstMarker s.markers ++ [k]) := by
  have hdrop : removeFirstMarker s.markers = [] := by
    match hms : s.markers with
    | [] => rfl
    | a :: t =>
        rw [hms] at hm
        simp only [List.length_cons] at hm
        have : t = [] := List.eq_nil_of_length_eq_zero (by omega)
        simp [removeFirstMarker, this]
  constructor
  · intro hk
    have hpage : pdf.page k = some (pdf.viewport k) := by
      simp [PDFDoc.page, hk.1, hk.2]
    simp [selectArtboard, hdoc, renderPDFPage, hpage, drawImageToCanvas,
      abstractState, hdrop]
  · intro hk
    have hpage : pdf.page k = none := by
      simp only [PDFDoc.page, if_neg hk]
    simp [selectArtboard, hdoc, renderPDFPage, hpage]

/-- Witness for C6: picking page 2 of a freshly loaded three-page document
selects it, and picking page 5 fails but still moves the selection. -/
theorem selectArtboard_selection_behavior_witness :
    ((processPDFFile (.ok threePageDoc) (fun _ => true)
        initialState).currentPDF = some threePageDoc ∧
     (processPDFFile (.ok threePageDoc) (fun _ => true)
        initialState).markers.length ≤ 1) ∧
    (selectArtboard 2 (processPDFFile (.ok threePageDoc) (fun _ => true)
        initialState)).selectedArtboard = some 2 ∧
    (selectArtboard 2 (processPDFFile (.ok threePageDoc) (fun _ => true)
        initialState)).markers = [2] ∧
    abstractState (selectArtboard 2 (processPDFFile (.ok threePageDoc)
        (fun _ => true) initialState)) = .selected 2 :=
  ⟨⟨rfl, by decide⟩,
    (selectArtboard_selection_behavior threePageDoc 2 _ rfl (by decide)).1
      ⟨by norm_num, by decide⟩⟩

/-- C7 counterexample: invoking `pick(2)` with no document loaded is not a
no-op — the selected-artboard value moves from none to 2 and the clicked
item acquires the selection marker. -/
theorem pick_without_document_changes_state :
    initialState.currentPDF = none ∧
    initialState.selectedArtboard = none ∧
    (selectArtboard 2 initialState).selectedArtboard = some 2 ∧
    (selectArtboard 2 initialState).markers = [2] := by
  refine ⟨rfl, rfl, rfl, rfl⟩

/-- C7 (amended): `pick(k)` with no document loaded performs no render —
canvas, `hasImage` and rendered page are untouched and the machine stays
Idle — but it still records `k` as the selection and moves the selection
marker. -/
theorem selectArtboard_no_document_no_render (k : Nat) (s : AppState)
    (hdoc : s.currentPDF = none) :
    (selectArtboard k s).canvas = s.canvas ∧
    (selectArtboard k s).hasImage = s.hasImage ∧
    (selectArtboard k s).renderedPage = s.renderedPage ∧
    (selectArtboard k s).currentPDF = none ∧
    abstractState (selectArtboard k s) = .idle ∧
    (selectArtboard k s).selectedArtboard = some k ∧
    (selectArtboard k s).markers = removeFirstMarker s.markers ++ [k] := by
  simp [selectArtboard, hdoc, abstractState]

/-- C5: export produces a PNG named after the uploaded file's base name
plus `_logo.png` exactly when `hasRenderedImage` (`hasImage`) is set; the
flag becomes true on a successful composite and false on clear; with the
flag unset the export produces no artifact, and export never mutates the
application state; `handleFile` records the base name as the uploaded
filename with its final extension stripped. -/
theorem downloadImage_gated_by_hasImage (s : AppState) (img : Raster)
    (name : String) :
    (s.hasImage = true →
      (downloadImage s).1 = some (s.currentFileName ++ "_logo.png")) ∧
    (s.hasImage = false → (downloadImage s).1 = none) ∧
    (downloadImage s).2 = s ∧
    (drawImageToCanvas img s).hasImage = true ∧
    (clearCanvas s).hasImage = false ∧
    initialState.hasImage = false ∧
    (validExtensions.contains (extOf name) = true →
      (handleFile name s).currentFileName = stripExt name) := by
  refine ⟨?_, ?_, ?_, rfl, rfl, rfl, ?_⟩
  · intro h; simp [downloadImage, h]
  · intro h; simp [downloadImage, h]
  · simp only [downloadImage]; split_ifs <;> rfl
  · intro h
    have h' : extOf name ∈ validExtensions := by simpa using h
    simp [handleFile, h', hideArtboardSection]

/-- Witness for C5: after compositing a raster the export of the session
whose base name is "old" yields "old_logo.png"; before any composite the
export yields nothing; `handleFile` on "logo.png" stores base name
"logo". -/
theorem downloadImage_gated_by_hasImage_witness :
    staleState.hasImage = true ∧
    (downloadImage staleState).1 = some ("old" ++ "_logo.png") ∧
    initialState.hasImage = false ∧
    (downloadImage initialState).1 = none ∧
    validExtensions.contains (extOf "logo.png") = true ∧
    (handleFile "logo.png" initialState).currentFileName
      = stripExt "logo.png" :=
  ⟨rfl,
    (downloadImage_gated_by_hasImage staleState ⟨400, 100⟩ "logo.png").1 rfl,
    rfl,
    (downloadImage_gated_by_hasImage initialState ⟨400, 100⟩
      "logo.png").2.1 rfl,
    by decide,
    (downloadImage_gated_by_hasImage initialState ⟨400, 100⟩
      "logo.png").2.2.2.2.2.2 (by decide)⟩

/-- C8: a document parse failure is surfaced as the distinct
IncompatibleExportMode condition exactly when the underlying failure
message contains "Invalid PDF" (and as the generic DocumentFormatError
otherwise); in either case the output canvas ends blank white and the
upload state resets to Idle. -/
theorem docError_classification_and_reset (msg : String)
    (renderOk : Nat → Bool) (s : AppState) :
    (processPDFFileError (.err msg) = some .incompatibleExportMode
        ↔ strIncludes msg "Invalid PDF" = true) ∧
    (processPDFFileError (.err msg) = some .documentFormatError
        ↔ strIncludes msg "Invalid PDF" = false) ∧
    (processPDFFile (.err msg) renderOk s).canvas = .white ∧
    (processPDFFile (.err msg) renderOk s).hasImage = false ∧
    (processPDFFile (.err msg) renderOk s).currentPDF = none ∧
    (processPDFFile (.err msg) renderOk s).currentFileName = "" ∧
    (processPDFFile (.err msg) renderOk s).selectedArtboard = none ∧
    abstractState (processPDFFile (.err msg) renderOk s) = .idle := by
  refine ⟨?_, ?_, rfl, rfl, rfl, rfl, rfl, rfl⟩ <;>
    by_cases hb : strIncludes msg "Invalid PDF" <;>
      simp [processPDFFileError, classifyDocError, hb]

/-- C9: in the artboard selector, the slot at position `i-1` is exactly
page `i`'s independently generated thumbnail; a slot fails exactly when
its own page's rendering fails (becoming the failed placeholder) and
otherwise holds the page's thumbnail at its index; the main canvas and
upload state are untouched by thumbnail generation. -/
theorem thumbnail_slots_independent (pdf : PDFDoc) (renderOk : Nat → Bool)
    (s : AppState) (i : Nat) (h1 : 1 ≤ i) (h2 : i ≤ pdf.numPages) :
    (showArtboardSelector pdf renderOk s).thumbnails.length
        = pdf.numPages ∧
    (showArtboardSelector pdf renderOk s).thumbnails.get? (i - 1)
        = some (generateThumbnail pdf i renderOk) ∧
    (renderOk i = false → generateThumbnail pdf i renderOk = .failed) ∧
    (renderOk i = true →
      generateThumbnail pdf i renderOk
        = .rendered i ((pdf.viewport i).1 * (200 / (pdf.viewport i).1))
            ((pdf.viewport i).2 * (200 / (pdf.viewport i).1))) ∧
    (showArtboardSelector pdf renderOk s).canvas = s.canvas ∧
    (showArtboardSelector pdf renderOk s).hasImage = s.hasImage ∧
    (showArtboardSelector pdf renderOk s).currentFileName
        = s.currentFileName ∧
    (showArtboardSelector pdf renderOk s).currentPDF = s.currentPDF := by
  have hpage : pdf.page i = some (pdf.viewport i) := by
    simp [PDFDoc.page, h1, h2]
  refine ⟨?_, ?_, ?_, ?_, rfl, rfl, rfl, rfl⟩
  · simp [showArtboardSelector]
  · have hlt : i - 1 < pdf.numPages := by omega
    have hi : i - 1 + 1 = i := by omega
    simp only [showArtboardSelector, List.get?_eq_getElem?,
      List.getElem?_map, Option.map_eq_some']
    exact ⟨i - 1, by simp [List.getElem?_range, hlt], by rw [hi]⟩
  · intro hf
    simp [generateThumbnail, hpage, hf]
  · intro ht
    simp [generateThumbnail, hpage, ht]

/-- Witness for C9: on the three-page document with page 2's rasterization
failing, slot 2 is the failed placeholder while the state is untouched. -/
theorem thumbnail_slots_independent_witness :
    (1 ≤ 2 ∧ 2 ≤ threePageDoc.numPages) ∧
    (showArtboardSelector threePageDoc (fun k => decide (k ≠ 2))
        initialState).thumbnails.get? 1
      = some (generateThumbnail threePageDoc 2 (fun k => decide (k ≠ 2))) ∧
    generateThumbnail threePageDoc 2 (fun k => decide (k ≠ 2)) = .failed ∧
    (showArtboardSelector threePageDoc (fun k => decide (k ≠ 2))
        initialState).canvas = initialState.canvas :=
  ⟨⟨by norm_num, by decide⟩,
    (thumbnail_slots_independent threePageDoc (fun k => decide (k ≠ 2))
      initialState 2 (by norm_num) (by decide)).2.1,
    (thumbnail_slots_independent threePageDoc (fun k => decide (k ≠ 2))
      initialState 2 (by norm_num) (by decide)).2.2.1 (by decide),
    (thumbnail_slots_independent threePageDoc (fun k => decide (k ≠ 2))
      initialState 2 (by norm_num) (by decide)).2.2.2.2.1⟩

/-- `getLastD` of a non-empty list ignores the default. -/
lemma getLastD_congr {α : Type} (l : List α) (h : l ≠ []) (d₁ d₂ : α) :
    l.getLastD d₁ = l.getLastD d₂ := by
  cases l with
  | nil => exact absurd rfl h
  | cons a t => rw [List.getLastD_cons, List.getLastD_cons]

/-- `split('.')` always yields at least one group. -/
lemma splitDots_ne_nil (cs : List Char) : splitDots cs ≠ [] := by
  cases cs with
  | nil => simp [splitDots]
  | cons c rest =>
      rw [splitDots]
      split_ifs
      · simp
      · cases hsp : splitDots rest <;> simp

/-- `split('.')` of a dot-free string is the single group holding the
whole string. -/
lemma splitDots_no_dot (cs : List Char) (h : '.' ∉ cs) :
    splitDots cs = [cs] := by
  induction cs with
  | nil => rfl
  | cons c rest ih =>
      have hc : ¬ c = '.' := by
        rintro rfl; exact h (List.mem_cons_self _ _)
      rw [splitDots, if_neg hc, ih (fun hm => h (List.mem_cons_of_mem c hm))]

/-- The last group of `split('.')` on `xs ++ "." ++ ys` with dot-free `ys`
is exactly `ys` (and there are at least two groups). -/
lemma splitDots_after_dot (ys : List Char) (hy : '.' ∉ ys) :
    ∀ xs : List Char,
      (splitDots (xs ++ '.' :: ys)).getLastD [] = ys ∧
      2 ≤ (splitDots (xs ++ '.' :: ys)).length := by
  intro xs
  induction xs with
  | nil =>
      rw [List.nil_append, splitDots, if_pos rfl, splitDots_no_dot ys hy]
      exact ⟨rfl, by simp⟩
  | cons x xs ih =>
      rw [List.cons_append, splitDots]
      split_ifs with hx
      · refine ⟨?_, ?_⟩
        · rw [List.getLastD_cons]
          exact ih.1
        · simp only [List.length_cons]
          omega
      · obtain ⟨hlast, hlen⟩ := ih
        cases hsp : splitDots (xs ++ '.' :: ys) with
        | nil => exact absurd hsp (splitDots_ne_nil _)
        | cons g gs =>
            rw [hsp] at hlast hlen
            have hgs : gs ≠ [] := by
              intro hn
              rw [hn] at hlen
              simp at hlen
            refine ⟨?_, ?_⟩
            · rw [List.getLastD_cons] at hlast ⊢
              rw [getLastD_congr gs hgs (x :: g) g]
              exact hlast
            · simp only [List.length_cons] at hlen ⊢
              omega

/-- C10: `handleFile` derives the extension as the lowercased characters
after the last dot, and a dotless filename is its own extension; hence the
file named exactly "png" is classified Raster, its base name strips
nothing, and its suggested export filename is "png_logo.png". -/
theorem dotless_filename_is_own_extension :
    (∀ cs : List Char, '.' ∉ cs →
      extOf (String.mk cs) = String.mk (cs.map Char.toLower)) ∧
    (∀ xs ys : List Char, '.' ∉ ys →
      extOf (String.mk (xs ++ '.' :: ys))
        = String.mk (ys.map Char.toLower)) ∧
    classify "png" = .raster ∧
    extOf "png" = "png" ∧
    stripExt "png" = "png" ∧
    (downloadImage (drawImageToCanvas ⟨400, 100⟩
        (handleFile "png" initialState))).1 = some "png_logo.png" := by
  refine ⟨?_, ?_, by decide, by decide, by decide, by decide⟩
  · intro cs h
    simp only [extOf]
    rw [splitDots_no_dot cs h]
    rfl
  · intro xs ys h
    simp only [extOf]
    rw [(splitDots_after_dot ys h xs).1]

/-- Witness for C10: a dotless name is its own extension, and the last-dot
rule on "logo.png". -/
theorem dotless_filename_is_own_extension_witness :
    ('.' ∉ "archive".data) ∧
    extOf (String.mk "archive".data)
      = String.mk ("archive".data.map Char.toLower) ∧
    ('.' ∉ "png".data) ∧
    extOf (String.mk ("logo".data ++ '.' :: "png".data))
      = String.mk ("png".data.map Char.toLower) :=
  ⟨by decide,
    dotless_filename_is_own_extension.1 "archive".data (by decide),
    by decide,
    dotless_filename_is_own_extension.2.1 "logo".data "png".data (by decide)⟩

/-- Witness for C7 at the initial state with `k = 2`. -/
theorem selectArtboard_no_document_no_render_witness :
    initialState.currentPDF = none ∧
    ((selectArtboard 2 initialState).canvas = initialState.canvas ∧
     (selectArtboard 2 initialState).hasImage = initialState.hasImage ∧
     (selectArtboard 2 initialState).renderedPage
        = initialState.renderedPage ∧
     (selectArtboard 2 initialState).currentPDF = none ∧
     abstractState (selectArtboard 2 initialState) = .idle ∧
     (selectArtboard 2 initialState).selectedArtboard = some 2 ∧
     (selectArtboard 2 initialState).markers
        = removeFirstMarker initialState.markers ++ [2]) :=
  ⟨rfl, selectArtboard_no_document_no_render 2 initialState rfl⟩

end LogoGen
